import Mathlib

/-!
# smallBlog: the read-through page cache of `main.go`

A shallow embedding of `loadPage`, `pageHandler`, `makeHandler` and `main`.

* Go strings are Lean `String`s.
* The global `cache map[string]*Page` is a function `String → Option Page`
  (`none` is an absent key; looking an absent key up yields the nil pointer).
  Pages are never mutated through their pointer, so they are kept by value.
* `ioutil.ReadFile` is a function from paths to `Option String` (the File Store).
* The visible effects of a handler (lock operations, map accesses, file reads
  and `renderTemplate` calls) are recorded, in program order, as a list of events.
-/

namespace SmallBlog

/-! ## Data model -/

/-- The `Page` struct. -/
structure Page where
  Title : String
  Body : String
deriving DecidableEq, Repr

/-- The global `cache map[string]*Page`. -/
abbrev Cache := String → Option Page

/-- The File Store: `ioutil.ReadFile`, `none` standing for any error. -/
abbrev FileStore := String → Option String

/-- The map made by `make(map[string]*Page)`. -/
def Cache.empty : Cache := fun _ => none

/-- The assignment `cache[key] = page`. -/
def Cache.insert (cache : Cache) (key : String) (page : Page) : Cache :=
  fun k => if k = key then some page else cache k

/-- Observable actions of a handler, in program order. -/
inductive Event where
  | rLock
  | rUnlock
  | lock
  | unlock
  | mapRead (key : String)
  | mapWrite (key : String) (page : Page)
  | readFile (path : String)
  | render (page : Option Page)
deriving DecidableEq, Repr

/-! ## `loadPage` and `pageHandler` -/

/-- The function `loadPage(title, path)`: `none` is the `(nil, err)` return. -/
def loadPage (fs : FileStore) (title path : String) : Option Page :=
  match fs path with
  | none => none
  | some body => some { Title := title, Body := body }

/-- The page literal rendered when the backing file cannot be read. -/
def notFoundPage : Page :=
  { Title := "Resource not found", Body := "<h1> 404, resource not found </h1>" }

/-- The expression `toplevel+"/"+bottomlevel` used as map key. -/
def cacheKey (toplevel bottomlevel : String) : String :=
  toplevel ++ "/" ++ bottomlevel

/-- The function `pageHandler`, run alone from start to end on the given cache:
the cache afterwards and the events it performed. -/
def pageHandler (fs : FileStore) (cache : Cache) (toplevel bottomlevel : String) :
    Cache × List Event :=
  if bottomlevel.length == 0 then
    (cache, [.rLock, .mapRead toplevel, .render (cache toplevel), .rUnlock])
  else
    match cache (toplevel ++ "/" ++ bottomlevel) with
    | some val =>
      (cache, [.rLock, .mapRead (toplevel ++ "/" ++ bottomlevel), .rUnlock, .render (some val)])
    | none =>
      match loadPage fs bottomlevel (toplevel ++ "/" ++ bottomlevel ++ ".html") with
      | none =>
        (cache, [.rLock, .mapRead (toplevel ++ "/" ++ bottomlevel), .rUnlock,
                 .readFile (toplevel ++ "/" ++ bottomlevel ++ ".html"),
                 .render (some notFoundPage)])
      | some page =>
        (cache.insert (toplevel ++ "/" ++ bottomlevel) page,
          [.rLock, .mapRead (toplevel ++ "/" ++ bottomlevel), .rUnlock,
           .readFile (toplevel ++ "/" ++ bottomlevel ++ ".html"),
           .render (some page),
           .lock, .mapWrite (toplevel ++ "/" ++ bottomlevel) page, .unlock])

/-- One request: the File Store as it is while the request runs, and the two
arguments `pageHandler` is called with. -/
structure Request where
  fs : FileStore
  toplevel : String
  bottomlevel : String

/-- Requests served one after another; the cache after the last one. -/
def serveAll : Cache → List Request → Cache
  | cache, [] => cache
  | cache, r :: rs => serveAll (pageHandler r.fs cache r.toplevel r.bottomlevel).1 rs

/-- The pages handed to `renderTemplate`, in order. -/
def renders : List Event → List (Option Page)
  | [] => []
  | .render p :: es => p :: renders es
  | _ :: es => renders es

/-- The paths handed to `ioutil.ReadFile`, in order. -/
def fileReads : List Event → List String
  | [] => []
  | .readFile p :: es => p :: fileReads es
  | _ :: es => fileReads es

/-- The keys of the map accesses (reads and writes) in an event list. -/
def mapKeys : List Event → List String
  | [] => []
  | .mapRead k :: es => k :: mapKeys es
  | .mapWrite k _ :: es => k :: mapKeys es
  | _ :: es => mapKeys es

/-- Whether an event list keeps every lock around exactly one map access: each
`RLock` is followed by one map read and `RUnlock`, each `Lock` by one map write and
`Unlock`, and no map access happens outside such a section. -/
def lockScopeMinimal : List Event → Bool
  | [] => true
  | .rLock :: .mapRead _ :: .rUnlock :: rest => lockScopeMinimal rest
  | .lock :: .mapWrite _ _ :: .unlock :: rest => lockScopeMinimal rest
  | .readFile _ :: rest => lockScopeMinimal rest
  | .render _ :: rest => lockScopeMinimal rest
  | _ => false

/-! ## Concurrent requests

Every map access of `pageHandler` sits inside a critical section of `cacheLock`,
so a critical section is one atomic step on the shared cache.  A request is cut
at the points where it holds no lock; a schedule picks which request moves next. -/

/-- Where a running `pageHandler` stands. -/
inductive Pc where
  /-- Not started. -/
  | start
  /-- After the `RUnlock` of line 61, holding `val` (`none` when `ok` is false). -/
  | afterRead (val : Option Page)
  /-- After `loadPage` returned an error (line 67). -/
  | loadFailed
  /-- After `loadPage` returned a page (line 67). -/
  | loaded (page : Page)
  /-- After `renderTemplate(w, page)` of line 73. -/
  | rendered (page : Page)
  /-- Returned. -/
  | done
deriving DecidableEq, Repr

/-- One in-flight request. -/
structure Thread where
  toplevel : String
  bottomlevel : String
  pc : Pc
  events : List Event

/-- The shared cache and the `n` requests in flight (`threads i` for `i < n`). -/
structure World where
  cache : Cache
  n : Nat
  threads : Nat → Thread

/-- The next uninterrupted stretch of `pageHandler` for one request. -/
def Thread.step (fs : FileStore) (cache : Cache) (t : Thread) : Cache × Thread :=
  match t.pc with
  | .start =>
    if t.bottomlevel.length == 0 then
      (cache, { t with
        pc := .done
        events := t.events ++
          [.rLock, .mapRead t.toplevel, .render (cache t.toplevel), .rUnlock] })
    else
      (cache, { t with
        pc := .afterRead (cache (t.toplevel ++ "/" ++ t.bottomlevel))
        events := t.events ++
          [.rLock, .mapRead (t.toplevel ++ "/" ++ t.bottomlevel), .rUnlock] })
  | .afterRead (some val) =>
    (cache, { t with pc := .done, events := t.events ++ [.render (some val)] })
  | .afterRead none =>
    match loadPage fs t.bottomlevel (t.toplevel ++ "/" ++ t.bottomlevel ++ ".html") with
    | none =>
      (cache, { t with
        pc := .loadFailed
        events := t.events ++ [.readFile (t.toplevel ++ "/" ++ t.bottomlevel ++ ".html")] })
    | some page =>
      (cache, { t with
        pc := .loaded page
        events := t.events ++ [.readFile (t.toplevel ++ "/" ++ t.bottomlevel ++ ".html")] })
  | .loadFailed =>
    (cache, { t with pc := .done, events := t.events ++ [.render (some notFoundPage)] })
  | .loaded page =>
    (cache, { t with pc := .rendered page, events := t.events ++ [.render (some page)] })
  | .rendered page =>
    (cache.insert (t.toplevel ++ "/" ++ t.bottomlevel) page,
      { t with
        pc := .done
        events := t.events ++
          [.lock, .mapWrite (t.toplevel ++ "/" ++ t.bottomlevel) page, .unlock] })
  | .done => (cache, t)

/-- Request `i` moves by one stretch; an index that names no request does nothing. -/
def World.step (fs : FileStore) (w : World) (i : Nat) : World :=
  if i < w.n then
    { w with
      cache := (Thread.step fs w.cache (w.threads i)).1
      threads := fun j => if j = i then (Thread.step fs w.cache (w.threads i)).2 else w.threads j }
  else w

/-- The world after a schedule, the list of the requests that move, in order. -/
def World.run (fs : FileStore) : World → List Nat → World
  | w, [] => w
  | w, i :: sched => World.run fs (w.step fs i) sched

/-- The world in which `n` requests for the same `(toplevel, bottomlevel)` are about to start. -/
def World.init (cache : Cache) (n : Nat) (toplevel bottomlevel : String) : World :=
  { cache := cache
    n := n
    threads := fun _ =>
      { toplevel := toplevel, bottomlevel := bottomlevel, pc := .start, events := [] } }

/-- What holds of a request for `(c, s)` while it runs against a cache that is
either the initial one or the initial one with `page` stored under the key. -/
def ThreadInv (filled : Cache) (c s : String) (page : Page) (cache : Cache) (t : Thread) : Prop :=
  t.toplevel = c ∧ t.bottomlevel = s ∧
  match t.pc with
  | .start => renders t.events = []
  | .afterRead none => renders t.events = []
  | .afterRead (some v) => v = page ∧ cache = filled ∧ renders t.events = []
  | .loadFailed => False
  | .loaded p => p = page ∧ renders t.events = []
  | .rendered p => p = page ∧ renders t.events = [some page]
  | .done => cache = filled ∧ renders t.events = [some page]

/-- What holds of the world while `n` requests for `(c, s)` run. -/
def WorldInv (filled : Cache) (c s : String) (page : Page) (cache0 : Cache) (w : World) : Prop :=
  (w.cache = cache0 ∨ w.cache = filled) ∧ ∀ i, ThreadInv filled c s page w.cache (w.threads i)

/-- Upper bound on the stretches a request still has to run. -/
def Pc.remaining : Pc → Nat
  | .start => 4
  | .afterRead _ => 3
  | .loaded _ => 2
  | .loadFailed => 1
  | .rendered _ => 1
  | .done => 0

/-! ## The `regexp` package

A model of the part of Go's `regexp` (RE2 syntax, leftmost-first matching) that
`main` and `makeHandler` use: literals, `.`, bracket classes with ranges, `^`, `$`,
`*`, `+`, `?`, `|`, capturing groups and backslash-escaped punctuation.  Patterns
using anything else are not compiled (`none`). -/

/-- Regular expression syntax trees. -/
inductive Regex where
  | emp
  | lit (c : Char)
  | anyNotNL
  | cls (neg : Bool) (ranges : List (Char × Char))
  | bot
  | eot
  | cat (a b : Regex)
  | alt (a b : Regex)
  | star (a : Regex)
  | plus (a : Regex)
  | quest (a : Regex)
  | cap (i : Nat) (a : Regex)
deriving DecidableEq, Repr

/-- A compiled pattern: its tree and the number of capturing groups. -/
structure Regexp where
  re : Regex
  numCap : Nat
deriving DecidableEq, Repr

/-- Concatenation of a sequence of items. -/
def catOf : List Regex → Regex
  | [] => .emp
  | [r] => r
  | r :: rs => .cat r (catOf rs)

/-- Alternation of branches, the first one preferred. -/
def altOf : List Regex → Regex
  | [] => .emp
  | [r] => r
  | r :: rs => .alt r (altOf rs)

/-- An open group while parsing: its capture index, the finished branches and
the items of the branch being read (both most recent first). -/
structure Frame where
  cap : Nat
  alts : List Regex
  seq : List Regex
deriving Repr

/-- The tree of a group once its last branch is complete. -/
def Frame.close (f : Frame) : Regex :=
  altOf ((catOf f.seq.reverse :: f.alts).reverse)

/-- Append an item to the branch being read. -/
def Frame.push (f : Frame) (r : Regex) : Frame :=
  { f with seq := r :: f.seq }

/-- Characters that a backslash turns into a literal: ASCII punctuation. -/
def isMeta (c : Char) : Bool :=
  decide (c.toNat < 128) && !c.isAlphanum

/-- One character of a bracket class, written plainly or after a backslash. -/
def parseClassChar : List Char → Option (Char × List Char)
  | [] => none
  | c :: cs =>
    if c = '\\' then
      match cs with
      | e :: rest => if isMeta e then some (e, rest) else none
      | [] => none
    else some (c, cs)

/-- The items of a bracket class up to the closing `]`; `first` is true right
after the opening bracket, where `]` is a literal. -/
def parseClass : Nat → List Char → Bool → List (Char × Char) →
    Option (List (Char × Char) × List Char)
  | 0, _, _, _ => none
  | _ + 1, [], _, _ => none
  | fuel + 1, c :: cs, first, acc =>
    if c = ']' ∧ first = false then some (acc.reverse, cs)
    else if c = '[' ∧ cs.head? = some ':' then none
    else
      match parseClassChar (c :: cs) with
      | none => none
      | some (lo, t1) =>
        match t1 with
        | '-' :: d :: t2 =>
          if d = ']' then parseClass fuel t1 false ((lo, lo) :: acc)
          else
            match parseClassChar (d :: t2) with
            | none => none
            | some (hi, t3) =>
              if lo ≤ hi then parseClass fuel t3 false ((lo, hi) :: acc) else none
        | _ => parseClass fuel t1 false ((lo, lo) :: acc)

/-- The parser: one pass over the pattern with a stack of open groups.  `n`
counts the groups opened so far and `rep` tells whether a repetition operator
may follow. -/
def parseLoop : Nat → List Char → Nat → Bool → Frame → List Frame → Option Regexp
  | 0, _, _, _, _, _ => none
  | _ + 1, [], n, _, top, [] => some { re := top.close, numCap := n }
  | _ + 1, [], _, _, _, _ :: _ => none
  | fuel + 1, c :: cs, n, rep, top, stack =>
    if c = '(' then
      if cs.head? = some '?' then none
      else parseLoop fuel cs (n + 1) false { cap := n + 1, alts := [], seq := [] } (top :: stack)
    else if c = ')' then
      match stack with
      | [] => none
      | parent :: below => parseLoop fuel cs n true (parent.push (.cap top.cap top.close)) below
    else if c = '|' then
      parseLoop fuel cs n false
        { top with alts := catOf top.seq.reverse :: top.alts, seq := [] } stack
    else if c = '*' ∨ c = '+' ∨ c = '?' then
      match rep, top.seq with
      | true, r :: rs =>
        parseLoop fuel cs n false
          { top with
            seq := (if c = '*' then .star r else if c = '+' then .plus r else .quest r) :: rs }
          stack
      | _, _ => none
    else if c = '[' then
      match cs with
      | '^' :: cs1 =>
        match parseClass fuel cs1 true [] with
        | some (rs, rest) => parseLoop fuel rest n true (top.push (.cls true rs)) stack
        | none => none
      | _ =>
        match parseClass fuel cs true [] with
        | some (rs, rest) => parseLoop fuel rest n true (top.push (.cls false rs)) stack
        | none => none
    else if c = '\\' then
      match cs with
      | e :: rest => if isMeta e then parseLoop fuel rest n true (top.push (.lit e)) stack else none
      | [] => none
    else if c = '{' then none
    else if c = '.' then parseLoop fuel cs n true (top.push .anyNotNL) stack
    else if c = '^' then parseLoop fuel cs n true (top.push .bot) stack
    else if c = '$' then parseLoop fuel cs n true (top.push .eot) stack
    else parseLoop fuel cs n true (top.push (.lit c)) stack

/-- The function `regexp.MustCompile`: `none` when the pattern is rejected (where
`MustCompile` panics) or uses syntax outside the modelled part. -/
def regexpCompile (pattern : String) : Option Regexp :=
  parseLoop (pattern.length + 1) pattern.data 0 false { cap := 0, alts := [], seq := [] } []

/-- Submatches found so far, indexed by group. -/
abbrev Caps := List String

/-- What remains to be matched: called with the position, the rest of the text
and the submatches. -/
abbrev Cont := Nat → List Char → Caps → Option Caps

/-- Membership in the ranges of a bracket class. -/
def inRanges (c : Char) : List (Char × Char) → Bool
  | [] => false
  | (lo, hi) :: rs => (decide (lo ≤ c) && decide (c ≤ hi)) || inRanges c rs

/-- Greedy repetition of the matcher `m` after its first iteration: a further
iteration has to consume text, so at most `s.length` of them are tried. -/
def starLoop (m : Nat → List Char → Caps → Cont → Option Caps) :
    Nat → Nat → List Char → Caps → Cont → Option Caps
  | 0, pos, s, caps, k => k pos s caps
  | n + 1, pos, s, caps, k =>
    match m pos s caps (fun pos1 s1 caps1 =>
        if s1.length < s.length then starLoop m n pos1 s1 caps1 k else none) with
    | some r => some r
    | none => k pos s caps

/-- Backtracking matcher with the leftmost-first preference order of `regexp`:
the left branch of an alternation first, one more iteration of a repetition first.
The first iteration of a repetition may match the empty text, which ends the
repetition (`regexp` compiles `x*` as `(x+)?`). -/
def matchRe : Regex → Nat → List Char → Caps → Cont → Option Caps
  | .emp, pos, s, caps, k => k pos s caps
  | .lit c, pos, s, caps, k =>
    match s with
    | d :: t => if d = c then k (pos + 1) t caps else none
    | [] => none
  | .anyNotNL, pos, s, caps, k =>
    match s with
    | d :: t => if d = '\n' then none else k (pos + 1) t caps
    | [] => none
  | .cls neg rs, pos, s, caps, k =>
    match s with
    | d :: t => if inRanges d rs = neg then none else k (pos + 1) t caps
    | [] => none
  | .bot, pos, s, caps, k => if pos = 0 then k pos s caps else none
  | .eot, pos, s, caps, k => if s.isEmpty then k pos s caps else none
  | .cat a b, pos, s, caps, k =>
    matchRe a pos s caps (fun pos1 s1 caps1 => matchRe b pos1 s1 caps1 k)
  | .alt a b, pos, s, caps, k =>
    match matchRe a pos s caps k with
    | some r => some r
    | none => matchRe b pos s caps k
  | .star a, pos, s, caps, k =>
    match matchRe a pos s caps (fun pos1 s1 caps1 =>
        if s1.length < s.length then starLoop (matchRe a) s1.length pos1 s1 caps1 k
        else k pos1 s1 caps1) with
    | some r => some r
    | none => k pos s caps
  | .plus a, pos, s, caps, k =>
    matchRe a pos s caps (fun pos1 s1 caps1 =>
      if s1.length < s.length then starLoop (matchRe a) s1.length pos1 s1 caps1 k
      else k pos1 s1 caps1)
  | .quest a, pos, s, caps, k =>
    match matchRe a pos s caps k with
    | some r => some r
    | none => k pos s caps
  | .cap i a, pos, s, caps, k =>
    matchRe a pos s caps (fun pos1 s1 caps1 =>
      k pos1 s1 (caps1.set i (String.mk (s.take (pos1 - pos)))))

/-- The leftmost match starting at position `pos` or later, `s` being the text from `pos` on. -/
def findFrom (re : Regexp) : Nat → List Char → Option Caps
  | pos, s =>
    match matchRe re.re pos s (List.replicate (re.numCap + 1) "")
        (fun pos1 _ caps1 => some (caps1.set 0 (String.mk (s.take (pos1 - pos))))) with
    | some m => some m
    | none =>
      match s with
      | [] => none
      | _ :: t => findFrom re (pos + 1) t

/-- The method `FindStringSubmatch`: `none` is the nil slice, otherwise the whole
match followed by the text of each group. -/
def FindStringSubmatch (re : Regexp) (s : String) : Option (List String) :=
  findFrom re 0 s.data

/-! ## `makeHandler` and `main` -/

/-- What the closure built by `makeHandler` did with a request. -/
inductive Handled (α : Type) where
  /-- The early `return` of line 94: `fn` was not called. -/
  | returned
  /-- The call `fn(w, r, m[1], m[2])` of line 97 and what it produced. -/
  | invoked (toplevel bottomlevel : String) (result : α)
  /-- A run-time panic: `m` is too short for `m[1]` or `m[2]`. -/
  | indexOutOfRange

/-- The closure returned by `makeHandler(fn)`, applied to the request path, with
the global `validPath` as a parameter. -/
def makeHandler {α : Type} (fn : String → String → α) (validPath : Regexp)
    (urlPath : String) : Handled α :=
  match FindStringSubmatch validPath urlPath with
  | none => .returned
  | some (_ :: m1 :: m2 :: _) => .invoked m1 m2 (fn m1 m2)
  | some _ => .indexOutOfRange

/-- The `Settings` struct; `IndexPages` lists the entries of the map in the
order in which the `range` loop of `main` visits them. -/
structure Settings where
  DefaultPath : String
  IndexPages : List (String × String)

/-- How `main` ends or what it serves with. -/
inductive Outcome where
  /-- The call `os.Exit(status)`. -/
  | exit (status : Nat)
  /-- A run-time panic (`http.HandleFunc`, slice bounds, `regexp.MustCompile`). -/
  | crashed
  /-- The call `http.ListenAndServe` is reached with these globals and routes. -/
  | serving (cache : Cache) (validPath : Regexp) (routes : List String)

/-- How the `range settings.IndexPages` loop of `main` ends. -/
inductive Seeded where
  /-- The call `os.Exit(status)` of line 119. -/
  | exited (status : Nat)
  /-- A panic of `http.HandleFunc` (line 115). -/
  | routePanic
  /-- The loop is through, with the cache, `validTopLevelPages` and the registered patterns. -/
  | done (cache : Cache) (validTopLevelPages : String) (routes : List String)

/-- The `range settings.IndexPages` loop of `main`.  The parameter `handleFunc`
tells whether `http.HandleFunc` registers a pattern, given the patterns registered
so far, or panics. -/
def seedLoop (handleFunc : List String → String → Bool) (fs : FileStore) :
    List (String × String) → Cache → String → List String → Seeded
  | [], cache, validTopLevelPages, routes => .done cache validTopLevelPages routes
  | (k, v) :: rest, cache, validTopLevelPages, routes =>
    if handleFunc routes ("/" ++ k ++ "/") = false then .routePanic
    else
      match loadPage fs k v with
      | none => .exited 1
      | some page =>
        seedLoop handleFunc fs rest (cache.insert k page) (validTopLevelPages ++ k ++ "|")
          (routes ++ ["/" ++ k ++ "/"])

/-- The function `main` up to the call of `http.ListenAndServe`.  The library
functions `regexp.MustCompile`, `http.HandleFunc` and `json.Unmarshal` are parameters. -/
def main (mustCompile : String → Option Regexp) (handleFunc : List String → String → Bool)
    (unmarshal : String → Settings) (fs : FileStore) : Outcome :=
  match fs "settings.json" with
  | none => .exit 1
  | some b =>
    match seedLoop handleFunc fs (unmarshal b).IndexPages Cache.empty "" [] with
    | .exited status => .exit status
    | .routePanic => .crashed
    | .done cache validTopLevelPages routes =>
      if validTopLevelPages.length = 0 then .crashed
      else if handleFunc routes "/" = false then .crashed
      else
        match mustCompile
            ("^/(" ++ String.mk validTopLevelPages.data.dropLast ++ ")/([a-zA-Z0-9-]*)$") with
        | none => .crashed
        | some re => .serving cache re (routes ++ ["/"])

/-- Whether `http.HandleFunc` registers the route of every entry, in loop order,
starting from the patterns `routes`. -/
def routesAccepted (handleFunc : List String → String → Bool) :
    List (String × String) → List String → Bool
  | [], _ => true
  | (k, _) :: rest, routes =>
    handleFunc routes ("/" ++ k ++ "/")
      && routesAccepted handleFunc rest (routes ++ ["/" ++ k ++ "/"])

/-! ## `http.HandleFunc`

What `http.HandleFunc` of Go 1.22 and later checks before it registers a pattern,
as far as modelled: the pattern is not empty and not registered already; when it
holds a blank, the text before the first blank is a method name; otherwise it has
a slash, no brace in the host part, and a path segment holding `{` is of the form
`{name}` or `{name...}` with a name.  Not modelled: what follows a method name,
the validity and position rules of wildcard names, and conflicts between two
different patterns. -/

/-- Token characters, of which an HTTP method name consists. -/
def isTokenChar (c : Char) : Bool :=
  decide (c.toNat < 128)
    && (c.isAlphanum
      || [33, 35, 36, 37, 38, 39, 42, 43, 45, 46, 94, 95, 96, 124, 126].contains c.toNat)

/-- Space or tab. -/
def isBlank (c : Char) : Bool :=
  c = ' ' || c = '\t'

/-- The pieces of a text between its slashes; `cur` is the piece being read, reversed. -/
def splitSlash : List Char → List Char → List (List Char)
  | cur, [] => [cur.reverse]
  | cur, c :: cs => if c = '/' then cur.reverse :: splitSlash [] cs else splitSlash (c :: cur) cs

/-- A path segment without `{`, or a wildcard `{name}` or `{name...}` with a name. -/
def segmentOK (seg : List Char) : Bool :=
  if seg.contains '{' then
    seg.head? = some '{' && seg.getLast? = some '}'
      && (seg.drop 1).dropLast != [] && (seg.drop 1).dropLast != "...".data
  else true

/-- The function `http.HandleFunc` on the patterns `routes` registered so far:
`true` when it registers `pattern`, `false` when it panics. -/
def httpHandleFunc (routes : List String) (pattern : String) : Bool :=
  if pattern.length = 0 then false
  else if routes.contains pattern then false
  else if pattern.data.any isBlank then
    (pattern.data.takeWhile (fun c => !isBlank c)).all isTokenChar
  else
    match splitSlash [] pattern.data with
    | host :: seg :: segs => !host.contains '{' && (seg :: segs).all segmentOK
    | _ => false

/-- A character of the class `[a-zA-Z0-9-]`. -/
def subpathChar (c : Char) : Bool :=
  inRanges c [('a', 'z'), ('A', 'Z'), ('0', '9'), ('-', '-')]

/-- A string matched by `[a-zA-Z0-9-]*`. -/
def subpathOK (s : String) : Bool :=
  s.data.all subpathChar

/-! ## Basic lemmas -/

theorem length_ne_zero_of_ne_empty {s : String} (h : s ≠ "") : (s.length == 0) = false := by
  cases s with
  | mk l =>
    cases l with
    | nil => exact absurd rfl h
    | cons a t => simp [String.length]

theorem pageHandler_nonempty_hit (fs : FileStore) (cache : Cache) (c s : String) (val : Page)
    (hs : s ≠ "") (hc : cache (cacheKey c s) = some val) :
    pageHandler fs cache c s
      = (cache, [.rLock, .mapRead (cacheKey c s), .rUnlock, .render (some val)]) := by
  unfold cacheKey at hc
  simp [pageHandler, cacheKey, length_ne_zero_of_ne_empty hs, hc]

theorem pageHandler_preserves (fs : FileStore) (cache : Cache) (c s key : String) (p : Page)
    (h : cache key = some p) : (pageHandler fs cache c s).1 key = some p := by
  unfold pageHandler
  split
  · exact h
  · split
    · exact h
    · rename_i hmiss
      split
      · exact h
      · have hne : key ≠ c ++ "/" ++ s := by
          intro e
          rw [e, hmiss] at h
          cases h
        simp [Cache.insert, hne, h]

theorem serveAll_preserves (reqs : List Request) :
    ∀ (cache : Cache) (key : String) (p : Page),
      cache key = some p → serveAll cache reqs key = some p := by
  induction reqs with
  | nil => intro cache key p h; exact h
  | cons r rs ih =>
    intro cache key p h
    exact ih _ key p (pageHandler_preserves r.fs cache r.toplevel r.bottomlevel key p h)

theorem pageHandler_miss_stores (fs : FileStore) (cache : Cache) (c s b : String)
    (hs : s ≠ "") (hmiss : cache (cacheKey c s) = none)
    (hfile : fs (cacheKey c s ++ ".html") = some b) :
    (pageHandler fs cache c s).1 (cacheKey c s) = some { Title := s, Body := b } := by
  unfold cacheKey at *
  simp [pageHandler, length_ne_zero_of_ne_empty hs, hmiss, loadPage, hfile, Cache.insert]

theorem lockScopeMinimal_nonempty (fs : FileStore) (cache : Cache) (c s : String)
    (hs : s ≠ "") : lockScopeMinimal (pageHandler fs cache c s).2 = true := by
  unfold pageHandler
  rw [length_ne_zero_of_ne_empty hs]
  simp only [Bool.false_eq_true, if_false]
  split
  · rfl
  · split <;> rfl

theorem cacheKey_data (c s : String) : (cacheKey c s).data = c.data ++ '/' :: s.data := by
  simp [cacheKey, String.data_append]

theorem slash_not_mem_of_subpathOK {s : String} (h : subpathOK s = true) : '/' ∉ s.data := by
  intro hmem
  have := List.all_eq_true.mp h '/' hmem
  revert this
  decide

theorem split_at_last_slash {l1 l2 r1 r2 : List Char}
    (h1 : '/' ∉ r1) (h2 : '/' ∉ r2) (h : l1 ++ '/' :: r1 = l2 ++ '/' :: r2) :
    l1 = l2 ∧ r1 = r2 := by
  induction l1 generalizing l2 with
  | nil =>
    cases l2 with
    | nil => simpa using h
    | cons a t =>
      simp only [List.nil_append, List.cons_append, List.cons.injEq] at h
      exfalso
      apply h1
      rw [h.2]
      simp
  | cons a t ih =>
    cases l2 with
    | nil =>
      simp only [List.nil_append, List.cons_append, List.cons.injEq] at h
      exfalso
      apply h2
      rw [← h.2]
      simp
    | cons a2 t2 =>
      simp only [List.cons_append, List.cons.injEq] at h
      obtain ⟨rfl, e⟩ := h
      obtain ⟨rfl, rfl⟩ := ih e
      exact ⟨rfl, rfl⟩

theorem cacheKey_injective {c1 c2 s1 s2 : String}
    (h1 : subpathOK s1 = true) (h2 : subpathOK s2 = true)
    (h : cacheKey c1 s1 = cacheKey c2 s2) : c1 = c2 ∧ s1 = s2 := by
  have hd : (cacheKey c1 s1).data = (cacheKey c2 s2).data := by rw [h]
  rw [cacheKey_data, cacheKey_data] at hd
  obtain ⟨e1, e2⟩ := split_at_last_slash (slash_not_mem_of_subpathOK h1)
    (slash_not_mem_of_subpathOK h2) hd
  exact ⟨String.ext e1, String.ext e2⟩

theorem cacheKey_ne_of_no_slash {k : String} (hk : '/' ∉ k.data) (c s : String) :
    k ≠ cacheKey c s := by
  intro e
  apply hk
  rw [e, cacheKey_data]
  simp

theorem mapKeys_pageHandler (fs : FileStore) (cache : Cache) (c s : String) (hs : s ≠ "") :
    ∀ k ∈ mapKeys (pageHandler fs cache c s).2, k = cacheKey c s := by
  unfold pageHandler cacheKey
  rw [length_ne_zero_of_ne_empty hs]
  simp only [Bool.false_eq_true, if_false]
  split
  · simp [mapKeys]
  · split <;> simp [mapKeys]

theorem seedLoop_fails (handleFunc : List String → String → Bool) (fs : FileStore)
    (l : List (String × String)) :
    ∀ (cache : Cache) (valid : String) (routes : List String),
      (∃ kv ∈ l, fs kv.2 = none) →
      (seedLoop handleFunc fs l cache valid routes = .exited 1
        ∨ seedLoop handleFunc fs l cache valid routes = .routePanic)
      ∧ (routesAccepted handleFunc l routes = true →
          seedLoop handleFunc fs l cache valid routes = .exited 1) := by
  induction l with
  | nil => intro _ _ _ h; obtain ⟨kv, hmem, _⟩ := h; cases hmem
  | cons hd rest ih =>
    intro cache valid routes h
    obtain ⟨k, v⟩ := hd
    unfold seedLoop routesAccepted loadPage
    cases hr : handleFunc routes ("/" ++ k ++ "/") with
    | false => simp
    | true =>
      cases hv : fs v with
      | none => simp
      | some body =>
        have hrest : ∃ kv ∈ rest, fs kv.2 = none := by
          obtain ⟨kv, hmem, hnone⟩ := h
          rcases List.mem_cons.mp hmem with e | hin
          · subst e
            rw [hv] at hnone
            cases hnone
          · exact ⟨kv, hin, hnone⟩
        simpa using ih (cache.insert k { Title := k, Body := body }) (valid ++ k ++ "|")
          (routes ++ ["/" ++ k ++ "/"]) hrest

theorem seedLoop_seeds (handleFunc : List String → String → Bool) (fs : FileStore)
    (l : List (String × String)) :
    ∀ (cache : Cache) (valid : String) (routes : List String)
      (out : Cache) (valid2 : String) (routes2 : List String),
      seedLoop handleFunc fs l cache valid routes = .done out valid2 routes2 →
      (∀ k, k ∉ l.map Prod.fst → out k = cache k)
      ∧ ((l.map Prod.fst).Nodup → ∀ k v, (k, v) ∈ l →
          ∃ body, fs v = some body ∧ out k = some { Title := k, Body := body }) := by
  induction l with
  | nil =>
    intro cache valid routes out valid2 routes2 h
    simp only [seedLoop, Seeded.done.injEq] at h
    obtain ⟨rfl, _, _⟩ := h
    exact ⟨fun _ _ => rfl, fun _ k v hmem => by cases hmem⟩
  | cons hd rest ih =>
    intro cache valid routes out valid2 routes2 h
    obtain ⟨k0, v0⟩ := hd
    unfold seedLoop loadPage at h
    cases hr : handleFunc routes ("/" ++ k0 ++ "/") with
    | false => rw [hr] at h; simp at h
    | true =>
      rw [hr] at h
      cases hv : fs v0 with
      | none => rw [hv] at h; simp at h
      | some body0 =>
        rw [hv] at h
        simp only [Bool.true_eq_false, if_false] at h
        obtain ⟨hkeep, hseed⟩ := ih _ _ _ out valid2 routes2 h
        constructor
        · intro k hk
          simp only [List.map_cons, List.mem_cons, not_or] at hk
          rw [hkeep k hk.2]
          simp [Cache.insert, hk.1]
        · intro hnd k v hmem
          simp only [List.map_cons, List.nodup_cons] at hnd
          rcases List.mem_cons.mp hmem with e | hin
          · simp only [Prod.mk.injEq] at e
            obtain ⟨rfl, rfl⟩ := e
            refine ⟨body0, hv, ?_⟩
            rw [hkeep k hnd.1]
            simp [Cache.insert]
          · exact hseed hnd.2 k v hin

/-! ## Concurrent requests: lemmas -/

theorem renders_append (a b : List Event) : renders (a ++ b) = renders a ++ renders b := by
  induction a with
  | nil => rfl
  | cons e es ih => cases e <;> simp [renders, ih]

theorem Cache.insert_insert (cache : Cache) (key : String) (p : Page) :
    (cache.insert key p).insert key p = cache.insert key p := by
  funext k
  by_cases h : k = key <;> simp [Cache.insert, h]

theorem ThreadInv.filled {filled : Cache} {c s : String} {page : Page} {cache : Cache}
    {t : Thread} (h : ThreadInv filled c s page cache t) : ThreadInv filled c s page filled t := by
  obtain ⟨h1, h2, h3⟩ := h
  refine ⟨h1, h2, ?_⟩
  cases hpc : t.pc with
  | start => rw [hpc] at h3; exact h3
  | afterRead v =>
    rw [hpc] at h3
    cases v with
    | none => exact h3
    | some v => exact ⟨h3.1, rfl, h3.2.2⟩
  | loadFailed => rw [hpc] at h3; exact h3
  | loaded p => rw [hpc] at h3; exact h3
  | rendered p => rw [hpc] at h3; exact h3
  | done => rw [hpc] at h3; exact ⟨rfl, h3.2⟩

theorem Thread.step_keeps_inv (fs : FileStore) (cache0 : Cache) (c s b : String)
    (hs : s ≠ "") (hmiss : cache0 (cacheKey c s) = none)
    (hfile : fs (cacheKey c s ++ ".html") = some b)
    (cache : Cache) (t : Thread)
    (hc : cache = cache0 ∨ cache = cache0.insert (cacheKey c s) { Title := s, Body := b })
    (ht : ThreadInv (cache0.insert (cacheKey c s) { Title := s, Body := b }) c s
      { Title := s, Body := b } cache t) :
    ((Thread.step fs cache t).1 = cache
      ∨ (Thread.step fs cache t).1 = cache0.insert (cacheKey c s) { Title := s, Body := b })
    ∧ ThreadInv (cache0.insert (cacheKey c s) { Title := s, Body := b }) c s
        { Title := s, Body := b } (Thread.step fs cache t).1 (Thread.step fs cache t).2 := by
  obtain ⟨t1, t2, pc, ev⟩ := t
  obtain ⟨h1, h2, h3⟩ := ht
  simp only at h1 h2 h3
  subst h1 h2
  unfold cacheKey at *
  cases pc with
  | start =>
    rcases hc with hc | hc
    · subst hc
      simp [Thread.step, ThreadInv, length_ne_zero_of_ne_empty hs, hmiss, renders_append, h3,
        renders]
    · subst hc
      simp [Thread.step, ThreadInv, length_ne_zero_of_ne_empty hs, renders_append, h3,
        renders, Cache.insert]
  | afterRead v =>
    cases v with
    | none =>
      simp [Thread.step, ThreadInv, loadPage, hfile, renders_append, h3, renders]
    | some v =>
      simp [Thread.step, ThreadInv, renders_append, h3.1, h3.2.1, h3.2.2, renders]
  | loadFailed => exact absurd h3 id
  | loaded p =>
    simp [Thread.step, ThreadInv, renders_append, h3.1, h3.2, renders]
  | rendered p =>
    have hfill : cache.insert (t1 ++ "/" ++ t2) p
        = cache0.insert (t1 ++ "/" ++ t2) { Title := t2, Body := b } := by
      rw [h3.1]
      rcases hc with hc | hc
      · rw [hc]
      · rw [hc, Cache.insert_insert]
    simp [Thread.step, ThreadInv, renders_append, h3.2, renders, hfill]
  | done => exact ⟨Or.inl rfl, rfl, rfl, h3⟩

theorem World.step_inv (fs : FileStore) (cache0 : Cache) (c s b : String)
    (hs : s ≠ "") (hmiss : cache0 (cacheKey c s) = none)
    (hfile : fs (cacheKey c s ++ ".html") = some b) (w : World) (i : Nat)
    (hw : WorldInv (cache0.insert (cacheKey c s) { Title := s, Body := b }) c s
      { Title := s, Body := b } cache0 w) :
    WorldInv (cache0.insert (cacheKey c s) { Title := s, Body := b }) c s
      { Title := s, Body := b } cache0 (w.step fs i) := by
  unfold World.step
  split
  · obtain ⟨hc, hts⟩ := hw
    obtain ⟨hc1, ht1⟩ := Thread.step_keeps_inv fs cache0 c s b hs hmiss hfile w.cache (w.threads i)
      hc (hts i)
    refine ⟨?_, ?_⟩
    · simp only
      rcases hc1 with e | e
      · rw [e]; exact hc
      · exact Or.inr e
    · intro j
      simp only
      by_cases hj : j = i
      · rw [if_pos hj]; exact ht1
      · rw [if_neg hj]
        rcases hc1 with e | e
        · rw [e]; exact hts j
        · rw [e]; exact (hts j).filled
  · exact hw

theorem World.run_inv (fs : FileStore) (cache0 : Cache) (c s b : String)
    (hs : s ≠ "") (hmiss : cache0 (cacheKey c s) = none)
    (hfile : fs (cacheKey c s ++ ".html") = some b) (sched : List Nat) :
    ∀ w : World,
      WorldInv (cache0.insert (cacheKey c s) { Title := s, Body := b }) c s
        { Title := s, Body := b } cache0 w →
      WorldInv (cache0.insert (cacheKey c s) { Title := s, Body := b }) c s
        { Title := s, Body := b } cache0 (World.run fs w sched) := by
  induction sched with
  | nil => intro w hw; exact hw
  | cons i rest ih =>
    intro w hw
    exact ih _ (World.step_inv fs cache0 c s b hs hmiss hfile w i hw)

theorem World.init_inv (filled : Cache) (c s : String) (page : Page) (cache0 : Cache) (n : Nat) :
    WorldInv filled c s page cache0 (World.init cache0 n c s) :=
  ⟨Or.inl rfl, fun _ => ⟨rfl, rfl, rfl⟩⟩

theorem Thread.step_remaining (fs : FileStore) (cache : Cache) (t : Thread) :
    (Thread.step fs cache t).2.pc.remaining ≤ t.pc.remaining - 1 := by
  obtain ⟨t1, t2, pc, ev⟩ := t
  cases pc with
  | start =>
    simp only [Thread.step]
    split <;> simp [Pc.remaining]
  | afterRead v =>
    cases v with
    | none =>
      simp only [Thread.step]
      split <;> simp [Pc.remaining]
    | some v => simp [Thread.step, Pc.remaining]
  | loadFailed => simp [Thread.step, Pc.remaining]
  | loaded p => simp [Thread.step, Pc.remaining]
  | rendered p => simp [Thread.step, Pc.remaining]
  | done => simp [Thread.step, Pc.remaining]

theorem World.step_n (fs : FileStore) (w : World) (i : Nat) : (w.step fs i).n = w.n := by
  unfold World.step
  split <;> rfl

theorem World.run_n (fs : FileStore) (sched : List Nat) :
    ∀ w : World, (World.run fs w sched).n = w.n := by
  induction sched with
  | nil => intro w; rfl
  | cons i rest ih => intro w; simp only [World.run]; rw [ih, World.step_n]

theorem World.run_remaining (fs : FileStore) (sched : List Nat) :
    ∀ (w : World) (i : Nat), i < w.n →
      ((World.run fs w sched).threads i).pc.remaining
        ≤ (w.threads i).pc.remaining - sched.count i := by
  induction sched with
  | nil => intro w i _; simp [World.run]
  | cons j rest ih =>
    intro w i hi
    simp only [World.run]
    have hn : i < (w.step fs j).n := by rw [World.step_n]; exact hi
    have h1 := ih (w.step fs j) i hn
    by_cases hj : j = i
    · subst hj
      have hstep : ((w.step fs j).threads j).pc.remaining ≤ (w.threads j).pc.remaining - 1 := by
        unfold World.step
        rw [if_pos hi]
        simp only [if_true]
        exact Thread.step_remaining fs w.cache (w.threads j)
      simp only [List.count_cons_self]
      omega
    · have hsame : (w.step fs j).threads i = w.threads i := by
        unfold World.step
        split
        · simp only
          rw [if_neg (fun e => hj e.symm)]
        · rfl
      rw [hsame] at h1
      rw [List.count_cons_of_ne (Ne.symm hj)]
      exact h1

theorem Pc.done_of_remaining_zero {pc : Pc} (h : pc.remaining = 0) : pc = .done := by
  cases pc <;> simp [Pc.remaining] at h ⊢

theorem run_single_eq_pageHandler (fs : FileStore) (cache : Cache) (c s : String) :
    (World.run fs (World.init cache 1 c s) [0, 0, 0, 0]).cache = (pageHandler fs cache c s).1
    ∧ ((World.run fs (World.init cache 1 c s) [0, 0, 0, 0]).threads 0).events
        = (pageHandler fs cache c s).2
    ∧ ((World.run fs (World.init cache 1 c s) [0, 0, 0, 0]).threads 0).pc = .done := by
  by_cases h0 : (s.length == 0) = true
  · simp [World.run, World.step, World.init, Thread.step, pageHandler, h0]
  · cases hk : cache (c ++ "/" ++ s) with
    | some v =>
      simp [World.run, World.step, World.init, Thread.step, pageHandler, h0, hk]
    | none =>
      cases hf : fs (c ++ "/" ++ s ++ ".html") with
      | none =>
        simp [World.run, World.step, World.init, Thread.step, pageHandler, h0, hk, hf, loadPage]
      | some body =>
        simp [World.run, World.step, World.init, Thread.step, pageHandler, h0, hk, hf, loadPage]

/-! ## The `regexp` model on a plain configuration -/

theorem FindStringSubmatch_plain_categories :
    (regexpCompile "^/(docs|blog)/([a-zA-Z0-9-]*)$").map
        (fun re => (FindStringSubmatch re "/blog/a-b9", FindStringSubmatch re "/blog/a_b",
          FindStringSubmatch re "/docs/", FindStringSubmatch re "/other/x",
          FindStringSubmatch re "/docs/x/y"))
      = some (some ["/blog/a-b9", "blog", "a-b9"], none, some ["/docs/", "docs", ""], none,
          none) := by
  rfl

/-! ## Sequential contracts of `pageHandler` -/

/-- C1 (miss-fill): for a non-empty subpath whose key is absent and whose file the
File Store can read, `pageHandler` reads that file once, renders exactly the page
titled with the subpath and holding the file content, and leaves the cache equal to
the old cache with that page stored under the key. -/
theorem C1_miss_fill (fs : FileStore) (cache : Cache) (c s b : String)
    (hs : s ≠ "") (hmiss : cache (cacheKey c s) = none)
    (hfile : fs (cacheKey c s ++ ".html") = some b) :
    renders (pageHandler fs cache c s).2 = [some { Title := s, Body := b }]
    ∧ fileReads (pageHandler fs cache c s).2 = [cacheKey c s ++ ".html"]
    ∧ (pageHandler fs cache c s).1 = cache.insert (cacheKey c s) { Title := s, Body := b }
    ∧ (pageHandler fs cache c s).1 (cacheKey c s) = some { Title := s, Body := b }
    ∧ ∀ k, k ≠ cacheKey c s → (pageHandler fs cache c s).1 k = cache k := by
  unfold cacheKey at *
  have hp : pageHandler fs cache c s
      = (cache.insert (c ++ "/" ++ s) { Title := s, Body := b },
          [.rLock, .mapRead (c ++ "/" ++ s), .rUnlock,
           .readFile (c ++ "/" ++ s ++ ".html"),
           .render (some { Title := s, Body := b }),
           .lock, .mapWrite (c ++ "/" ++ s) { Title := s, Body := b }, .unlock]) := by
    simp [pageHandler, length_ne_zero_of_ne_empty hs, hmiss, loadPage, hfile]
  rw [hp]
  refine ⟨rfl, rfl, rfl, by simp [Cache.insert], ?_⟩
  intro k hk
  simp [Cache.insert, hk]

theorem C1_miss_fill_witness :
    renders (pageHandler (fun p => if p = "docs/intro.html" then some "hello" else none)
        Cache.empty "docs" "intro").2 = [some { Title := "intro", Body := "hello" }]
    ∧ fileReads (pageHandler (fun p => if p = "docs/intro.html" then some "hello" else none)
        Cache.empty "docs" "intro").2 = [cacheKey "docs" "intro" ++ ".html"]
    ∧ (pageHandler (fun p => if p = "docs/intro.html" then some "hello" else none)
        Cache.empty "docs" "intro").1
        = Cache.empty.insert (cacheKey "docs" "intro") { Title := "intro", Body := "hello" }
    ∧ (pageHandler (fun p => if p = "docs/intro.html" then some "hello" else none)
        Cache.empty "docs" "intro").1 (cacheKey "docs" "intro")
        = some { Title := "intro", Body := "hello" }
    ∧ ∀ k, k ≠ cacheKey "docs" "intro" →
        (pageHandler (fun p => if p = "docs/intro.html" then some "hello" else none)
          Cache.empty "docs" "intro").1 k = Cache.empty k :=
  C1_miss_fill (fun p => if p = "docs/intro.html" then some "hello" else none)
    Cache.empty "docs" "intro" "hello" (by decide) rfl (by decide)

/-- C2 (not-found isolation): for a non-empty subpath whose key is absent and whose
file the File Store cannot read, `pageHandler` renders exactly the fixed not-found
page, writes nothing to the map and leaves the cache as it was, the key still absent. -/
theorem C2_not_found_isolation (fs : FileStore) (cache : Cache) (c s : String)
    (hs : s ≠ "") (hmiss : cache (cacheKey c s) = none)
    (hfile : fs (cacheKey c s ++ ".html") = none) :
    renders (pageHandler fs cache c s).2
        = [some { Title := "Resource not found", Body := "<h1> 404, resource not found </h1>" }]
    ∧ (pageHandler fs cache c s).1 = cache
    ∧ (pageHandler fs cache c s).1 (cacheKey c s) = none
    ∧ ∀ k p, Event.mapWrite k p ∉ (pageHandler fs cache c s).2 := by
  unfold cacheKey at *
  have hp : pageHandler fs cache c s
      = (cache, [.rLock, .mapRead (c ++ "/" ++ s), .rUnlock,
                 .readFile (c ++ "/" ++ s ++ ".html"), .render (some notFoundPage)]) := by
    simp [pageHandler, length_ne_zero_of_ne_empty hs, hmiss, loadPage, hfile]
  rw [hp]
  refine ⟨rfl, rfl, hmiss, ?_⟩
  intro k p hmem
  simp at hmem

theorem C2_not_found_isolation_witness :
    renders (pageHandler (fun _ => none) Cache.empty "docs" "missing").2
        = [some { Title := "Resource not found", Body := "<h1> 404, resource not found </h1>" }]
    ∧ (pageHandler (fun _ => none) Cache.empty "docs" "missing").1 = Cache.empty
    ∧ (pageHandler (fun _ => none) Cache.empty "docs" "missing").1 (cacheKey "docs" "missing")
        = none
    ∧ ∀ k p, Event.mapWrite k p ∉ (pageHandler (fun _ => none) Cache.empty "docs" "missing").2 :=
  C2_not_found_isolation (fun _ => none) Cache.empty "docs" "missing" (by decide) rfl rfl

/-- C3 (read-after-write): once a miss-fill of `(c, s)` stored the content `b`, then
after any further requests (with any arguments and File Stores) a lookup of `(c, s)`
under any File Store is a cache hit: it renders the page titled `s` with body `b`,
reads no file and leaves the cache unchanged. -/
theorem C3_read_after_write (fs fs2 : FileStore) (cache : Cache) (c s b : String)
    (between : List Request)
    (hs : s ≠ "") (hmiss : cache (cacheKey c s) = none)
    (hfile : fs (cacheKey c s ++ ".html") = some b) :
    renders (pageHandler fs2 (serveAll (pageHandler fs cache c s).1 between) c s).2
        = [some { Title := s, Body := b }]
    ∧ fileReads (pageHandler fs2 (serveAll (pageHandler fs cache c s).1 between) c s).2 = []
    ∧ (pageHandler fs2 (serveAll (pageHandler fs cache c s).1 between) c s).1
        = serveAll (pageHandler fs cache c s).1 between := by
  have hfill := (pageHandler_miss_stores fs cache c s b hs hmiss hfile)
  have hkept := serveAll_preserves between _ _ _ hfill
  rw [pageHandler_nonempty_hit fs2 _ c s _ hs hkept]
  exact ⟨rfl, rfl, rfl⟩

theorem C3_read_after_write_witness :
    renders (pageHandler (fun _ => none)
        (serveAll (pageHandler (fun p => if p = "docs/intro.html" then some "hello" else none)
          Cache.empty "docs" "intro").1
          [{ fs := fun _ => some "other", toplevel := "docs", bottomlevel := "intro" },
           { fs := fun _ => some "other", toplevel := "docs", bottomlevel := "x" }])
        "docs" "intro").2
        = [some { Title := "intro", Body := "hello" }]
    ∧ fileReads (pageHandler (fun _ => none)
        (serveAll (pageHandler (fun p => if p = "docs/intro.html" then some "hello" else none)
          Cache.empty "docs" "intro").1
          [{ fs := fun _ => some "other", toplevel := "docs", bottomlevel := "intro" },
           { fs := fun _ => some "other", toplevel := "docs", bottomlevel := "x" }])
        "docs" "intro").2 = []
    ∧ (pageHandler (fun _ => none)
        (serveAll (pageHandler (fun p => if p = "docs/intro.html" then some "hello" else none)
          Cache.empty "docs" "intro").1
          [{ fs := fun _ => some "other", toplevel := "docs", bottomlevel := "intro" },
           { fs := fun _ => some "other", toplevel := "docs", bottomlevel := "x" }])
        "docs" "intro").1
        = serveAll (pageHandler (fun p => if p = "docs/intro.html" then some "hello" else none)
          Cache.empty "docs" "intro").1
          [{ fs := fun _ => some "other", toplevel := "docs", bottomlevel := "intro" },
           { fs := fun _ => some "other", toplevel := "docs", bottomlevel := "x" }] :=
  C3_read_after_write (fun p => if p = "docs/intro.html" then some "hello" else none)
    (fun _ => none) Cache.empty "docs" "intro" "hello"
    [{ fs := fun _ => some "other", toplevel := "docs", bottomlevel := "intro" },
     { fs := fun _ => some "other", toplevel := "docs", bottomlevel := "x" }]
    (by decide) rfl (by decide)

/-- C4 (no eviction, no update): whatever requests are served one after another,
with whatever arguments and File Stores, every key present in the cache before is
present afterwards and maps to the same page. -/
theorem C4_no_eviction_no_update (cache : Cache) (reqs : List Request) (key : String)
    (p : Page) (h : cache key = some p) : serveAll cache reqs key = some p :=
  serveAll_preserves reqs cache key p h

theorem C4_no_eviction_no_update_witness :
    serveAll (Cache.empty.insert "docs/intro" { Title := "intro", Body := "old" })
      [{ fs := fun _ => some "new", toplevel := "docs", bottomlevel := "intro" },
       { fs := fun _ => none, toplevel := "docs", bottomlevel := "" },
       { fs := fun _ => some "new", toplevel := "docs/intro", bottomlevel := "x" }]
      "docs/intro" = some { Title := "intro", Body := "old" } :=
  C4_no_eviction_no_update _ _ "docs/intro" { Title := "intro", Body := "old" } (by decide)

/-- C5 (empty subpath): with an empty subpath `pageHandler` renders exactly what the
map holds under the category, reads no file and leaves the cache unchanged. -/
theorem C5_empty_subpath (fs : FileStore) (cache : Cache) (c : String) :
    renders (pageHandler fs cache c "").2 = [cache c]
    ∧ fileReads (pageHandler fs cache c "").2 = []
    ∧ (∀ k p, Event.mapWrite k p ∉ (pageHandler fs cache c "").2)
    ∧ (pageHandler fs cache c "").1 = cache := by
  have hp : pageHandler fs cache c ""
      = (cache, [.rLock, .mapRead c, .render (cache c), .rUnlock]) := by
    simp [pageHandler]
  rw [hp]
  refine ⟨rfl, rfl, ?_, rfl⟩
  intro k p hmem
  simp at hmem

/-- C8 (lock scope), evaluated on the empty subpath: `renderTemplate` runs between
`RLock` and `RUnlock`, so the read lock is held across the rendering and the event
list is not one that keeps each lock around a single map access. -/
theorem C8_render_under_read_lock (fs : FileStore) (cache : Cache) (c : String) :
    (pageHandler fs cache c "").2
        = [.rLock, .mapRead c, .render (cache c), .rUnlock]
    ∧ lockScopeMinimal (pageHandler fs cache c "").2 = false := by
  have hp : pageHandler fs cache c ""
      = (cache, [.rLock, .mapRead c, .render (cache c), .rUnlock]) := by
    simp [pageHandler]
  rw [hp]
  exact ⟨rfl, rfl⟩

/-- C10 (keys do not collide): for subpaths made of letters, digits and hyphens, equal
keys `c1/s1` and `c2/s2` come from equal categories and equal subpaths; a category
without a slash differs from every key `c/s`; hence a lookup with a non-empty subpath
accesses neither the entry of such a category nor the entry of a different pair. -/
theorem C10_keys_do_not_collide (c1 c2 s1 s2 k : String)
    (h1 : subpathOK s1 = true) (h2 : subpathOK s2 = true) (hk : '/' ∉ k.data) :
    (cacheKey c1 s1 = cacheKey c2 s2 → c1 = c2 ∧ s1 = s2)
    ∧ (∀ c s, k ≠ cacheKey c s)
    ∧ (s1 ≠ "" → ∀ (fs : FileStore) (cache : Cache),
        k ∉ mapKeys (pageHandler fs cache c1 s1).2
        ∧ ((c1 ≠ c2 ∨ s1 ≠ s2) → cacheKey c2 s2 ∉ mapKeys (pageHandler fs cache c1 s1).2)) := by
  refine ⟨cacheKey_injective h1 h2, cacheKey_ne_of_no_slash hk, ?_⟩
  intro hs fs cache
  constructor
  · intro hmem
    exact cacheKey_ne_of_no_slash hk c1 s1 (mapKeys_pageHandler fs cache c1 s1 hs k hmem)
  · intro hne hmem
    have e := mapKeys_pageHandler fs cache c1 s1 hs _ hmem
    obtain ⟨e1, e2⟩ := cacheKey_injective h2 h1 e
    rcases hne with h | h
    · exact h e1.symm
    · exact h e2.symm

theorem C10_keys_do_not_collide_witness :
    ("docs" = "docs" ∧ "intro" = "intro")
    ∧ (∀ c s, "docs" ≠ cacheKey c s)
    ∧ (∀ (fs : FileStore) (cache : Cache),
        "docs" ∉ mapKeys (pageHandler fs cache "docs" "intro").2
        ∧ (("docs" ≠ "blog" ∨ "intro" ≠ "intro") →
            cacheKey "blog" "intro" ∉ mapKeys (pageHandler fs cache "docs" "intro").2)) :=
  ⟨(C10_keys_do_not_collide "docs" "docs" "intro" "intro" "docs"
      (by decide) (by decide) (by decide)).1 rfl,
   (C10_keys_do_not_collide "docs" "blog" "intro" "intro" "docs"
      (by decide) (by decide) (by decide)).2.1,
   (C10_keys_do_not_collide "docs" "blog" "intro" "intro" "docs"
      (by decide) (by decide) (by decide)).2.2 (by decide)⟩

/-- C6 (seed failure is fatal), as amended: once the settings are read, if the File
Store fails for the default path of some configured category then `main` does not
reach `http.ListenAndServe`: it ends with `os.Exit(1)`, or with a panic of
`http.HandleFunc` when that rejects the route of a category, and it is `os.Exit(1)`
whenever `http.HandleFunc` registers every route.  Whenever `main` does reach
`http.ListenAndServe`, the cache holds, for every configured category `k` (the
categories are the keys of a map, hence distinct), the page titled `k` whose body is
the File Store content of the default path of `k`. -/
theorem C6_seed_failure_is_fatal (mustCompile : String → Option Regexp)
    (handleFunc : List String → String → Bool)
    (unmarshal : String → Settings) (fs : FileStore) (b : String)
    (hb : fs "settings.json" = some b) :
    ((∃ kv ∈ (unmarshal b).IndexPages, fs kv.2 = none) →
        (main mustCompile handleFunc unmarshal fs = .exit 1
          ∨ (main mustCompile handleFunc unmarshal fs = .crashed
              ∧ routesAccepted handleFunc (unmarshal b).IndexPages [] = false))
        ∧ (routesAccepted handleFunc (unmarshal b).IndexPages [] = true →
            main mustCompile handleFunc unmarshal fs = .exit 1))
    ∧ (∀ cache re routes,
        main mustCompile handleFunc unmarshal fs = .serving cache re routes →
        ((unmarshal b).IndexPages.map Prod.fst).Nodup →
        ∀ k v, (k, v) ∈ (unmarshal b).IndexPages →
          ∃ body, fs v = some body ∧ cache k = some { Title := k, Body := body }) := by
  constructor
  · intro hfail
    obtain ⟨hor, hacc⟩ := seedLoop_fails handleFunc fs _ Cache.empty "" [] hfail
    have hexit : seedLoop handleFunc fs (unmarshal b).IndexPages Cache.empty "" [] = .exited 1 →
        main mustCompile handleFunc unmarshal fs = .exit 1 := by
      intro h
      unfold main
      rw [hb]
      simp only
      rw [h]
    have hpanic : seedLoop handleFunc fs (unmarshal b).IndexPages Cache.empty "" [] = .routePanic →
        main mustCompile handleFunc unmarshal fs = .crashed := by
      intro h
      unfold main
      rw [hb]
      simp only
      rw [h]
    refine ⟨?_, fun h => hexit (hacc h)⟩
    cases hacc2 : routesAccepted handleFunc (unmarshal b).IndexPages []
    · rcases hor with h | h
      · exact Or.inl (hexit h)
      · exact Or.inr ⟨hpanic h, rfl⟩
    · exact Or.inl (hexit (hacc hacc2))
  · intro cache re routes hmain hnd k v hmem
    unfold main at hmain
    rw [hb] at hmain
    simp only at hmain
    cases hseed : seedLoop handleFunc fs (unmarshal b).IndexPages Cache.empty "" [] with
    | exited st => rw [hseed] at hmain; cases hmain
    | routePanic => rw [hseed] at hmain; cases hmain
    | done c1 valid rts =>
      rw [hseed] at hmain
      simp only at hmain
      split at hmain
      · cases hmain
      · split at hmain
        · cases hmain
        · split at hmain
          · cases hmain
          · simp only [Outcome.serving.injEq] at hmain
            obtain ⟨rfl, _, _⟩ := hmain
            exact (seedLoop_seeds handleFunc fs _ _ _ _ _ _ _ hseed).2 hnd k v hmem

theorem C6_seed_failure_is_fatal_witness :
    main regexpCompile httpHandleFunc
        (fun _ => { DefaultPath := "docs", IndexPages := [("docs", "defaults/docs.html")] })
        (fun p => if p = "settings.json" then some "DefaultPath, IndexPages" else none)
      = .exit 1
    ∧ main regexpCompile httpHandleFunc
        (fun _ => { DefaultPath := "docs", IndexPages := [("docs", "defaults/docs.html")] })
        (fun p => if p = "settings.json" then some "DefaultPath, IndexPages"
          else if p = "defaults/docs.html" then some "<p>hi</p>" else none)
      = .serving (Cache.empty.insert "docs" { Title := "docs", Body := "<p>hi</p>" })
          { re := .cat .bot (.cat (.lit '/') (.cat
              (.cap 1 (.cat (.lit 'd') (.cat (.lit 'o') (.cat (.lit 'c') (.lit 's')))))
              (.cat (.lit '/') (.cat
                (.cap 2 (.star (.cls false [('a', 'z'), ('A', 'Z'), ('0', '9'), ('-', '-')])))
                .eot)))),
            numCap := 2 }
          ["/docs/", "/"]
    ∧ ∃ body,
        (fun p => if p = "settings.json" then some "DefaultPath, IndexPages"
          else if p = "defaults/docs.html" then some "<p>hi</p>" else none)
          "defaults/docs.html" = some body
        ∧ (Cache.empty.insert "docs" { Title := "docs", Body := "<p>hi</p>" }) "docs"
            = some { Title := "docs", Body := body } :=
  ⟨((C6_seed_failure_is_fatal regexpCompile httpHandleFunc
      (fun _ => { DefaultPath := "docs", IndexPages := [("docs", "defaults/docs.html")] })
      (fun p => if p = "settings.json" then some "DefaultPath, IndexPages" else none)
      "DefaultPath, IndexPages" (by decide)).1
      ⟨("docs", "defaults/docs.html"), by simp, by decide⟩).2 (by decide),
   rfl,
   (C6_seed_failure_is_fatal regexpCompile httpHandleFunc
      (fun _ => { DefaultPath := "docs", IndexPages := [("docs", "defaults/docs.html")] })
      (fun p => if p = "settings.json" then some "DefaultPath, IndexPages"
        else if p = "defaults/docs.html" then some "<p>hi</p>" else none)
      "DefaultPath, IndexPages" (by decide)).2
      (Cache.empty.insert "docs" { Title := "docs", Body := "<p>hi</p>" })
      { re := .cat .bot (.cat (.lit '/') (.cat
          (.cap 1 (.cat (.lit 'd') (.cat (.lit 'o') (.cat (.lit 'c') (.lit 's')))))
          (.cat (.lit '/') (.cat
            (.cap 2 (.star (.cls false [('a', 'z'), ('A', 'Z'), ('0', '9'), ('-', '-')])))
            .eot)))),
        numCap := 2 }
      ["/docs/", "/"] rfl (by decide) "docs" "defaults/docs.html" (by simp)⟩

/-- C6 as stated fails when `http.HandleFunc` panics first: with the single category
`a b`, whose default path `missing.html` the File Store cannot read, the route
`/a b/` is rejected by `http.HandleFunc` (line 115, before `loadPage`), so `main`
ends with that panic and not with `os.Exit(1)`. -/
theorem C6_route_panic_counterexample :
    (fun p => if p = "settings.json" then some "DefaultPath, IndexPages" else none : FileStore)
        "settings.json" = some "DefaultPath, IndexPages"
    ∧ (∃ kv ∈ [("a b", "missing.html")],
        (fun p => if p = "settings.json" then some "DefaultPath, IndexPages" else none : FileStore)
          kv.2 = none)
    ∧ httpHandleFunc [] "/a b/" = false
    ∧ main regexpCompile httpHandleFunc
        (fun _ => { DefaultPath := "a b", IndexPages := [("a b", "missing.html")] })
        (fun p => if p = "settings.json" then some "DefaultPath, IndexPages" else none)
      = .crashed
    ∧ main regexpCompile httpHandleFunc
        (fun _ => { DefaultPath := "a b", IndexPages := [("a b", "missing.html")] })
        (fun p => if p = "settings.json" then some "DefaultPath, IndexPages" else none)
      ≠ .exit 1 := by
  have hcr : main regexpCompile httpHandleFunc
        (fun _ => { DefaultPath := "a b", IndexPages := [("a b", "missing.html")] })
        (fun p => if p = "settings.json" then some "DefaultPath, IndexPages" else none)
      = .crashed := rfl
  refine ⟨by decide, ⟨("a b", "missing.html"), by simp, by decide⟩, by decide, hcr, ?_⟩
  rw [hcr]
  intro h
  cases h

/-- C7 (inbound key resolution), evaluated on a failing input: with the single
configured category `.*`, `main` reaches serving and registers the route `/.*/`; for
the request path `/.*/x/y`, which lies under that route, `makeHandler` calls
`pageHandler` with the category `.*/x`, which is not a configured category name,
and the File Store is asked for `.*/x/y.html`. -/
theorem C7_unescaped_category_reaches_cache :
    ∃ cache re routes,
      main regexpCompile httpHandleFunc
          (fun _ => { DefaultPath := ".*", IndexPages := [(".*", "index.html")] })
          (fun p => if p = "settings.json" then some "DefaultPath, IndexPages"
            else if p = "index.html" then some "home" else none)
        = .serving cache re routes
      ∧ "/.*/" ∈ routes
      ∧ "/.*/".data <+: "/.*/x/y".data
      ∧ makeHandler (pageHandler (fun _ => none) cache) re "/.*/x/y"
          = .invoked ".*/x" "y" (pageHandler (fun _ => none) cache ".*/x" "y")
      ∧ ".*/x" ∉ [(".*", "index.html")].map Prod.fst
      ∧ fileReads (pageHandler (fun _ => none) cache ".*/x" "y").2 = [".*/x/y.html"] :=
  ⟨_, _, _, rfl, by decide, by decide, rfl, by decide, rfl⟩

/-- C9 (concurrent miss convergence, for a non-empty subpath): let `N ≥ 1` requests
for the same `(c, s)`, `s` non-empty, start on a cache without the key `c/s`, under a
File Store holding `b` for `c/s.html`.  Under every schedule that lets each request
move at least four times all requests return; and under every schedule after which
all requests have returned, each request rendered exactly the page titled `s` with
body `b`, and the cache is the initial cache with that page under the key `c/s`. -/
theorem C9_concurrent_miss_convergence (fs : FileStore) (cache0 : Cache) (c s b : String)
    (N : Nat) (sched : List Nat) (hN : 1 ≤ N) (hs : s ≠ "")
    (hmiss : cache0 (cacheKey c s) = none)
    (hfile : fs (cacheKey c s ++ ".html") = some b) :
    ((∀ i < N, 4 ≤ sched.count i) →
        ∀ i < N, ((World.run fs (World.init cache0 N c s) sched).threads i).pc = .done)
    ∧ ((∀ i < N, ((World.run fs (World.init cache0 N c s) sched).threads i).pc = .done) →
        (∀ i < N, renders ((World.run fs (World.init cache0 N c s) sched).threads i).events
            = [some { Title := s, Body := b }])
        ∧ (World.run fs (World.init cache0 N c s) sched).cache
            = cache0.insert (cacheKey c s) { Title := s, Body := b }) := by
  constructor
  · intro hcount i hi
    apply Pc.done_of_remaining_zero
    have h := World.run_remaining fs sched (World.init cache0 N c s) i hi
    have h4 := hcount i hi
    have hstart : ((World.init cache0 N c s).threads i).pc.remaining = 4 := rfl
    omega
  · intro hdone
    obtain ⟨_, hts⟩ := World.run_inv fs cache0 c s b hs hmiss hfile sched _
      (World.init_inv _ c s _ cache0 N)
    have key : ∀ i < N,
        (World.run fs (World.init cache0 N c s) sched).cache
            = cache0.insert (cacheKey c s) { Title := s, Body := b }
        ∧ renders ((World.run fs (World.init cache0 N c s) sched).threads i).events
            = [some { Title := s, Body := b }] := by
      intro i hi
      have hti := (hts i).2.2
      rw [hdone i hi] at hti
      exact hti
    exact ⟨fun i hi => (key i hi).2, (key 0 hN).1⟩

theorem C9_concurrent_miss_convergence_witness :
    (∀ i < 2, ((World.run (fun p => if p = "docs/intro.html" then some "hello" else none)
        (World.init Cache.empty 2 "docs" "intro") [0, 1, 0, 1, 1, 0, 1, 0]).threads i).pc = .done)
    ∧ (∀ i < 2, renders ((World.run (fun p => if p = "docs/intro.html" then some "hello" else none)
        (World.init Cache.empty 2 "docs" "intro") [0, 1, 0, 1, 1, 0, 1, 0]).threads i).events
          = [some { Title := "intro", Body := "hello" }])
    ∧ (World.run (fun p => if p = "docs/intro.html" then some "hello" else none)
        (World.init Cache.empty 2 "docs" "intro") [0, 1, 0, 1, 1, 0, 1, 0]).cache
          = Cache.empty.insert (cacheKey "docs" "intro") { Title := "intro", Body := "hello" } :=
  ⟨(C9_concurrent_miss_convergence (fun p => if p = "docs/intro.html" then some "hello" else none)
      Cache.empty "docs" "intro" "hello" 2 [0, 1, 0, 1, 1, 0, 1, 0]
      (by decide) (by decide) rfl (by decide)).1 (by decide),
   (C9_concurrent_miss_convergence (fun p => if p = "docs/intro.html" then some "hello" else none)
      Cache.empty "docs" "intro" "hello" 2 [0, 1, 0, 1, 1, 0, 1, 0]
      (by decide) (by decide) rfl (by decide)).2 (by decide)⟩

/-- C9 as stated fails for the empty subpath: one request for `("docs", "")` on the
empty cache, with the File Store holding `x` for `docs/.html`, returns after rendering
what the map holds under `docs` (nothing), not a page with body `x`, and the key
`docs/` is still absent from the cache. -/
theorem C9_empty_subpath_counterexample :
    1 ≤ 1
    ∧ Cache.empty (cacheKey "docs" "") = none
    ∧ (fun _ => some "x" : FileStore) (cacheKey "docs" "" ++ ".html") = some "x"
    ∧ (∀ i < 1, ((World.run (fun _ => some "x") (World.init Cache.empty 1 "docs" "")
        [0]).threads i).pc = .done)
    ∧ renders ((World.run (fun _ => some "x") (World.init Cache.empty 1 "docs" "")
        [0]).threads 0).events = [none]
    ∧ ¬ (∀ i < 1, renders ((World.run (fun _ => some "x") (World.init Cache.empty 1 "docs" "")
        [0]).threads i).events = [some { Title := "", Body := "x" }])
    ∧ (World.run (fun _ => some "x") (World.init Cache.empty 1 "docs" "") [0]).cache
        (cacheKey "docs" "") = none := by
  refine ⟨by decide, rfl, rfl, by decide, by decide, by decide, rfl⟩

end SmallBlog
